import Mathlib

/-!
Verification of the citation core of japan-law-mcp: the Kanji numeral
converter (`src/utils/kanji-numerals.ts`), the citation parser
(`src/citation/parser.ts`), the citation formatter
(`src/citation/formatter.ts`), the citation validator
(`src/citation/validator.ts`) and the `format_citation` tool
(`src/tools/format-citation.ts`), shallowly embedded as executable Lean
functions over `String` / `List Char`.

JavaScript regular expressions are embedded as hand-written backtracking
matchers in continuation-passing style: alternation `a|b` becomes `oalt`,
greedy `\s*` becomes `wsStarThen` (longest continuation first), lazy `.+?`
becomes `lazyDotPlusThen` (shortest first), and so on, preserving the
engine's priority order.  `\d+` is embedded as maximal munch
(`digitsThen`): in every pattern of this code base the element following
`\d+` can never begin with a digit, so giving back digits on backtracking
can never succeed and maximal munch is observationally equal.
-/

/-- Whitespace class of JavaScript (`\s`, `String.prototype.trim`). -/
def isJsWs (c : Char) : Bool :=
  decide (c.toNat = 32 ∨ c.toNat = 9 ∨ c.toNat = 10 ∨ c.toNat = 11 ∨ c.toNat = 12 ∨
    c.toNat = 13 ∨ c.toNat = 0xa0 ∨ c.toNat = 0x1680 ∨
    (0x2000 ≤ c.toNat ∧ c.toNat ≤ 0x200a) ∨ c.toNat = 0x2028 ∨ c.toNat = 0x2029 ∨
    c.toNat = 0x202f ∨ c.toNat = 0x205f ∨ c.toNat = 0x3000 ∨ c.toNat = 0xfeff)

/-- Line terminators, the characters NOT matched by `.` in a JS regex. -/
def isLineTerm (c : Char) : Bool :=
  decide (c.toNat = 10 ∨ c.toNat = 13 ∨ c.toNat = 0x2028 ∨ c.toNat = 0x2029)

/-- Digit class of JavaScript (`\d`): exactly the ASCII digits. -/
def jsIsDigit (c : Char) : Bool :=
  decide (48 ≤ c.toNat ∧ c.toNat ≤ 57)

/-- Trim JS whitespace from both ends of a character list. -/
def jsTrimL (l : List Char) : List Char :=
  ((l.dropWhile isJsWs).reverse.dropWhile isJsWs).reverse

/-- Embedding of `String.prototype.trim`. -/
def jsTrim (s : String) : String :=
  ⟨jsTrimL s.data⟩

/-- Numeric value of a list of ASCII digit characters (radix 10). -/
def decValue (l : List Char) : Nat :=
  l.foldl (fun a c => a * 10 + (c.toNat - 48)) 0

/-- The ASCII digit character of a decimal digit. -/
def digitChar (d : Nat) : Char :=
  if d = 0 then '0' else if d = 1 then '1' else if d = 2 then '2' else if d = 3 then '3'
  else if d = 4 then '4' else if d = 5 then '5' else if d = 6 then '6'
  else if d = 7 then '7' else if d = 8 then '8' else '9'

/-- Recursion core of decimal rendering; the fuel is structural so that
the definition reduces inside the kernel (`n + 1` units always suffice
since the quotient shrinks every step). -/
def natToDecGo (fuel n : Nat) : List Char :=
  match fuel with
  | 0 => []
  | fuel + 1 => if n < 10 then [digitChar n] else natToDecGo fuel (n / 10) ++ [digitChar (n % 10)]

/-- Decimal rendering of a natural number (JS `String(n)` for `n ≥ 0`). -/
def natToDecL (n : Nat) : List Char :=
  natToDecGo (n + 1) n

/-- Decimal rendering of a natural number as a `String`. -/
def natToDecStr (n : Nat) : String :=
  ⟨natToDecL n⟩

/-- Decimal rendering of an integer (JS `String(n)` on integral numbers). -/
def intToDecStr (n : Int) : String :=
  if n < 0 then "-" ++ natToDecStr (-n).toNat else natToDecStr n.toNat

/-- Sign read by `parseInt` after whitespace skipping. -/
def jsParseIntSign (l : List Char) : Int :=
  if l.headD ' ' = '-' then -1 else 1

/-- Characters left for the digit scan of `parseInt` once an optional
sign has been consumed. -/
def jsParseIntBody (l : List Char) : List Char :=
  if l.headD ' ' = '-' ∨ l.headD ' ' = '+' then l.tail else l

/-- Embedding of JS `parseInt(s, 10)`: skip leading whitespace, optional
sign, then the maximal run of leading decimal digits; `none` models `NaN`. -/
def jsParseInt (s : String) : Option Int :=
  if ((jsParseIntBody (s.data.dropWhile isJsWs)).takeWhile jsIsDigit).isEmpty then none
  else
    some (jsParseIntSign (s.data.dropWhile isJsWs) *
      (decValue ((jsParseIntBody (s.data.dropWhile isJsWs)).takeWhile jsIsDigit) : Int))

/-- The `KANJI_DIGITS` table of `kanji-numerals.ts`. -/
def kanjiDigit? (c : Char) : Option Nat :=
  if c = '〇' ∨ c = '零' then some 0
  else if c = '一' ∨ c = '壱' then some 1
  else if c = '二' ∨ c = '弐' then some 2
  else if c = '三' ∨ c = '参' then some 3
  else if c = '四' then some 4
  else if c = '五' then some 5
  else if c = '六' then some 6
  else if c = '七' then some 7
  else if c = '八' then some 8
  else if c = '九' then some 9
  else none

/-- The `KANJI_MULTIPLIERS` table of `kanji-numerals.ts`. -/
def kanjiMult? (c : Char) : Option Nat :=
  if c = '十' then some 10
  else if c = '百' then some 100
  else if c = '千' then some 1000
  else none

/-- One step of the multiplicative-additive loop of `kanjiToArabic`:
state is `(result, current)`; characters in neither table are skipped. -/
def kanjiStep (st : Nat × Nat) (c : Char) : Nat × Nat :=
  match kanjiDigit? c with
  | some d => (st.1, d)
  | none =>
    match kanjiMult? c with
    | some m => (st.1 + (if st.2 = 0 then 1 else st.2) * m, 0)
    | none => st

/-- Embedding of `kanjiToArabic` on a character list: empty input is 0; a
multi-character all-simple-digit string with no multiplier is read
positionally; a single simple digit is its value; otherwise the
multiplicative-additive loop runs and any trailing digit is added. -/
def kanjiToArabicL (l : List Char) : Nat :=
  if l.isEmpty then 0
  else if (l.all fun c => (kanjiDigit? c).isSome) ∧ l.length > 1 ∧
      ¬(l.any fun c => (kanjiMult? c).isSome) then
    l.foldl (fun a c => a * 10 + ((kanjiDigit? c).getD 0)) 0
  else if l.length = 1 ∧ (kanjiDigit? (l.headD ' ')).isSome then
    (kanjiDigit? (l.headD ' ')).getD 0
  else
    ((l.foldl kanjiStep (0, 0)).1 + (l.foldl kanjiStep (0, 0)).2)

/-- Embedding of `kanjiToArabic : string -> number`. -/
def kanjiToArabic (s : String) : Nat :=
  kanjiToArabicL s.data

/-- The `ARABIC_TO_KANJI_DIGITS` table; out-of-range lookups yield the JS
`undefined`, which string concatenation renders as `"undefined"`. -/
def kanjiDigitChars (d : Nat) : List Char :=
  if d = 0 then ['〇'] else if d = 1 then ['一'] else if d = 2 then ['二']
  else if d = 3 then ['三'] else if d = 4 then ['四'] else if d = 5 then ['五']
  else if d = 6 then ['六'] else if d = 7 then ['七'] else if d = 8 then ['八']
  else if d = 9 then ['九'] else "undefined".data

/-- One place of `arabicToKanji`: nothing for coefficient 0, the bare
multiplier for coefficient 1, digit-then-multiplier otherwise. -/
def kanjiPlace (coef : Nat) (mult : Char) : List Char :=
  if coef > 0 then (if coef > 1 then kanjiDigitChars coef else []) ++ [mult] else []

/-- Embedding of `arabicToKanji` on naturals: 0 is `〇`, 1–9 a single
digit, otherwise thousands/hundreds/tens places then the ones digit. -/
def arabicToKanjiNatL (n : Nat) : List Char :=
  if n = 0 then ['〇']
  else if n ≤ 9 then kanjiDigitChars n
  else
    kanjiPlace (n / 1000) '千' ++ kanjiPlace (n % 1000 / 100) '百' ++
      kanjiPlace (n % 100 / 10) '十' ++
      (if n % 10 > 0 then kanjiDigitChars (n % 10) else [])

/-- Embedding of `arabicToKanji : number -> string` (negative input gives
the empty string). -/
def arabicToKanji (num : Int) : String :=
  if num < 0 then "" else ⟨arabicToKanjiNatL num.toNat⟩

/-- The `typeof articleNum === 'string' ? parseInt(articleNum, 10) :
articleNum` step of `formatArticleKanji`. -/
def articleKanjiNum : String ⊕ Int → Option Int
  | Sum.inl s => jsParseInt s
  | Sum.inr n => some n

/-- The raw template rendering of the original `articleNum` argument. -/
def articleKanjiRaw : String ⊕ Int → String
  | Sum.inl s => s
  | Sum.inr n => intToDecStr n

/-- Embedding of `formatArticleKanji(articleNum: string | number)`: the
string side goes through `parseInt`; `NaN` or a non-positive value falls
back to wrapping the raw input. -/
def formatArticleKanji (articleNum : String ⊕ Int) : String :=
  match articleKanjiNum articleNum with
  | none => "第" ++ articleKanjiRaw articleNum ++ "条"
  | some n =>
    if n ≤ 0 then "第" ++ articleKanjiRaw articleNum ++ "条"
    else "第" ++ arabicToKanji n ++ "条"

/-! Backtracking regex combinators.  Each combinator consumes input from a
`List Char` and passes the rest (plus any capture) to a continuation; the
first alternative in engine priority order that makes the whole
continuation succeed wins, exactly as in the JS backtracking engine. -/

/-- Ordered alternation: the embedding of `a|b` (and of `Option` fallback
chains); the left branch has priority. -/
def oalt {α : Type} (a b : Option α) : Option α :=
  match a with
  | some v => some v
  | none => b

/-- Match one literal character. -/
def litThen {α : Type} (ch : Char) (k : List Char → Option α) : List Char → Option α :=
  fun l =>
    match l with
    | c :: rest => if c = ch then k rest else none
    | [] => none

/-- Match a literal keyword case-insensitively (JS `/i` on ASCII; without
the `u` flag no non-ASCII character folds to an ASCII letter). The keyword
is given in lowercase. -/
def litCIThen {α : Type} (kw : List Char) (k : List Char → Option α) : List Char → Option α :=
  fun l =>
    match kw with
    | [] => k l
    | kc :: krest =>
      match l with
      | [] => none
      | c :: rest => if c.toLower = kc then litCIThen krest k rest else none

/-- Greedy `\s*`: try the longest whitespace run first, backtracking to
shorter runs. -/
def wsStarThen {α : Type} (k : List Char → Option α) : List Char → Option α
  | [] => k []
  | c :: rest =>
    if isJsWs c then oalt (wsStarThen k rest) (k (c :: rest)) else k (c :: rest)

/-- Greedy `\s+`: at least one whitespace character, then as `\s*`. -/
def wsPlusThen {α : Type} (k : List Char → Option α) : List Char → Option α
  | [] => none
  | c :: rest => if isJsWs c then wsStarThen k rest else none

/-- Optional character class, e.g. `[,、]?` — presence has priority. -/
def charOptThen {α : Type} (cs : List Char) (k : List Char → Option α) : List Char → Option α :=
  fun l =>
    match l with
    | c :: rest => if cs.contains c then oalt (k rest) (k l) else k l
    | [] => k []

/-- Mandatory character class, e.g. `[,、]`. -/
def charThen {α : Type} (cs : List Char) (k : List Char → Option α) : List Char → Option α :=
  fun l =>
    match l with
    | c :: rest => if cs.contains c then k rest else none
    | [] => none

/-- Optional literal character, e.g. `\.?` — presence has priority. -/
def charLitOptThen {α : Type} (ch : Char) (k : List Char → Option α) : List Char → Option α :=
  fun l => oalt (litThen ch k l) (k l)

/-- Expansion loop of lazy `(.+?)`: at each state first hand the shortest
remaining split to the continuation, then extend by one non-terminator. -/
def lazyDotPlusGo {α : Type} (k : List Char → List Char → Option α) (acc : List Char) :
    List Char → Option α
  | [] => k acc []
  | c :: rest =>
    oalt (k acc (c :: rest))
      (if isLineTerm c then none else lazyDotPlusGo k (acc ++ [c]) rest)

/-- Lazy `(.+?)`: captures one-or-more non-line-terminator characters,
shortest first; the continuation receives the capture and the rest. -/
def lazyDotPlusThen {α : Type} (k : List Char → List Char → Option α) :
    List Char → Option α
  | [] => none
  | c :: rest => if isLineTerm c then none else lazyDotPlusGo k [c] rest

/-- Greedy `(\d+)` as maximal munch: in every pattern of this code base
the element after `\d+` can never begin with a digit, so backtracking into
a shorter digit run can never succeed and maximal munch is exact. -/
def digitsThen {α : Type} (k : List Char → List Char → Option α) : List Char → Option α :=
  fun l =>
    if (l.takeWhile jsIsDigit).isEmpty then none
    else k (l.takeWhile jsIsDigit) (l.drop (l.takeWhile jsIsDigit).length)

/-- Exactly four digits: `(\d{4})`. -/
def digits4Then {α : Type} (k : List Char → List Char → Option α) : List Char → Option α :=
  fun l =>
    match l with
    | a :: b :: c :: d :: rest =>
      if jsIsDigit a ∧ jsIsDigit b ∧ jsIsDigit c ∧ jsIsDigit d then k [a, b, c, d] rest
      else none
    | _ => none

/-- Unanchored search: try the pattern at each start position from the
left, as a JS regex without `^` does. -/
def searchPat {α : Type} (m : List Char → Option α) : List Char → Option α
  | [] => m []
  | c :: rest => oalt (m (c :: rest)) (searchPat m rest)

/-- The wrapped-numeral sub-pattern `第(.+?)mark` with its capture (used
with mark `条`, `項` or `号`). -/
def japSubCapThen {α : Type} (mark : Char) (k : List Char → List Char → Option α) :
    List Char → Option α :=
  litThen '第' (lazyDotPlusThen fun inner rest => litThen mark (k inner) rest)

/-- The optional sub-pattern `(?:第.+?mark)?` — presence has priority. -/
def japSubOptThen {α : Type} (mark : Char) (k : List Char → Option α) :
    List Char → Option α :=
  fun l => oalt (japSubCapThen mark (fun _ => k) l) (k l)

/-- The reference block `第.+?条(?:第.+?項)?(?:第.+?号)?` shared by the two
native grammars. -/
def japRefThen {α : Type} (k : List Char → Option α) : List Char → Option α :=
  japSubCapThen '条' fun _ rest => japSubOptThen '項' (japSubOptThen '号' k) rest

/-- The capture `(.+)$`: greedy `.+` must reach the end of input, so it
succeeds exactly on a non-empty terminator-free rest, capturing all of it. -/
def dotPlusEndCap (l : List Char) : Option (List Char) :=
  if l.isEmpty then none else if l.all fun c => ¬isLineTerm c then some l else none

/-- The tail `\s*[,、]?\s*(.+)$` of `JAPANESE_CITATION`. -/
def japTail : List Char → Option (List Char) :=
  wsStarThen (charOptThen [',', '、'] (wsStarThen dotPlusEndCap))

/-- Embedding of `JAPANESE_CITATION =
`​`/^(第.+?条(?:第.+?項)?(?:第.+?号)?)\s*[,、]?\s*(.+)$/`: returns the
reference block (group 1) and the law name (group 2). -/
def matchJapaneseCitation (l : List Char) : Option (List Char × List Char) :=
  japRefThen (fun rest => (japTail rest).map fun g2 => (l.take (l.length - rest.length), g2)) l

/-- Embedding of `TRAILING_JAPANESE =
`​`/^(.+?)\s+(第.+?条(?:第.+?項)?(?:第.+?号)?)$/`: returns the law name
(group 1) and the reference block (group 2). -/
def matchTrailingJapanese (l : List Char) : Option (List Char × List Char) :=
  lazyDotPlusThen
    (fun g1 rest =>
      wsPlusThen
        (fun rest2 =>
          japRefThen (fun rest3 => if rest3.isEmpty then some (g1, rest2) else none) rest2)
        rest)
    l

/-- Groups captured by `ENGLISH_FULL`. -/
structure EnglishFullGroups where
  art : List Char
  para : Option (List Char)
  item : Option (List Char)
  name : List Char
  act : Option (List Char × List Char)
  deriving Repr, DecidableEq

/-- The keyword `(?:Article|Art\.?)` of `ENGLISH_FULL`. -/
def kwArticleFullThen {α : Type} (k : List Char → Option α) : List Char → Option α :=
  fun l => oalt (litCIThen "article".data k l) (litCIThen "art".data (charLitOptThen '.' k) l)

/-- The keyword `(?:Paragraph|Para\.?|Par\.?)`. -/
def kwParagraphFullThen {α : Type} (k : List Char → Option α) : List Char → Option α :=
  fun l =>
    oalt (litCIThen "paragraph".data k l)
      (oalt (litCIThen "para".data (charLitOptThen '.' k) l)
        (litCIThen "par".data (charLitOptThen '.' k) l))

/-- The optional group `(?:\s*,?\s*KW\s+(\d+))?` shared by the paragraph
and item groups of `ENGLISH_FULL`; presence has priority. -/
def engNumGroupOptThen {α : Type} (kw : {β : Type} → (List Char → Option β) → List Char → Option β)
    (k : Option (List Char) → List Char → Option α) : List Char → Option α :=
  fun l =>
    oalt
      (wsStarThen
        (charOptThen [',']
          (wsStarThen (kw (wsPlusThen (digitsThen fun ds rest => k (some ds) rest))))) l)
      (k none l)

/-- The act-number clause `\s*\(Act\s+No\.\s*(\d+)\s+of\s+(\d{4})\)`
followed by the end anchor. -/
def actClauseEnd (l : List Char) : Option (List Char × List Char) :=
  wsStarThen
    (litThen '('
      (litCIThen "act".data
        (wsPlusThen
          (litCIThen "no".data
            (litThen '.'
              (wsStarThen
                (digitsThen fun no rest =>
                  wsPlusThen
                    (litCIThen "of".data
                      (wsPlusThen
                        (digits4Then fun yr rest2 =>
                          litThen ')'
                            (fun rest3 => if rest3.isEmpty then some (no, yr) else none)
                            rest2)))
                    rest)))))))
    l

/-- Embedding of `ENGLISH_FULL =
`​`/^(?:Article|Art\.?)\s+(\d+)(?:\s*,?\s*(?:Paragraph|Para\.?|Par\.?)\s+(\d+))?(?:\s*,?\s*(?:Item)\s+(\d+))?\s*[,、]\s*(.+?)(?:\s*\(Act\s+No\.\s*(\d+)\s+of\s+(\d{4})\))?$/i`. -/
def matchEnglishFull (l : List Char) : Option EnglishFullGroups :=
  kwArticleFullThen
    (wsPlusThen
      (digitsThen fun art rest =>
        engNumGroupOptThen (fun {_} => kwParagraphFullThen)
          (fun para rest2 =>
            engNumGroupOptThen (fun {_} => litCIThen "item".data)
              (fun item rest3 =>
                wsStarThen
                  (charThen [',', '、']
                    (wsStarThen
                      (lazyDotPlusThen fun name rest4 =>
                        oalt
                          ((actClauseEnd rest4).map fun a =>
                            ⟨art, para, item, name, some a⟩)
                          (if rest4.isEmpty then some ⟨art, para, item, name, none⟩
                           else none))))
                  rest3)
              rest2)
          rest))
    l

/-- Groups captured by `SHORT_CITATION`. -/
structure ShortGroups where
  art : List Char
  para : Option (List Char)
  name : List Char
  deriving Repr, DecidableEq

/-- The keyword `(?:Art\.?|Article)` of `SHORT_CITATION` (note the order:
`Art\.?` first). -/
def kwArticleShortThen {α : Type} (k : List Char → Option α) : List Char → Option α :=
  fun l => oalt (litCIThen "art".data (charLitOptThen '.' k) l) (litCIThen "article".data k l)

/-- The keyword `(?:Para\.?|Paragraph)` of `SHORT_CITATION`. -/
def kwParagraphShortThen {α : Type} (k : List Char → Option α) : List Char → Option α :=
  fun l =>
    oalt (litCIThen "para".data (charLitOptThen '.' k) l) (litCIThen "paragraph".data k l)

/-- Embedding of `SHORT_CITATION =
`​`/^(?:Art\.?|Article)\s+(\d+)(?:\s*,?\s*(?:Para\.?|Paragraph)\s+(\d+))?\s*[,、]\s*(.+?)$/i`. -/
def matchShortCitation (l : List Char) : Option ShortGroups :=
  kwArticleShortThen
    (wsPlusThen
      (digitsThen fun art rest =>
        engNumGroupOptThen (fun {_} => kwParagraphShortThen)
          (fun para rest2 =>
            wsStarThen
              (charThen [',', '、']
                (wsStarThen
                  (lazyDotPlusThen fun name rest3 =>
                    if rest3.isEmpty then some ⟨art, para, name⟩ else none)))
              rest2)
          rest))
    l

/-- Groups captured by `ID_BASED`: the full identifier (group 1, in input
case), its digit components, the article and the optional paragraph. -/
structure IdGroups where
  ident : List Char
  actNo : List Char
  year : List Char
  art : List Char
  para : Option (List Char)
  deriving Repr, DecidableEq

/-- The keyword `(?:art\.?|article)` of `ID_BASED`. -/
def kwArticleIdThen {α : Type} (k : List Char → Option α) : List Char → Option α :=
  kwArticleShortThen k

/-- The keyword `(?:para\.?|paragraph)` of `ID_BASED`. -/
def kwParagraphIdThen {α : Type} (k : List Char → Option α) : List Char → Option α :=
  kwParagraphShortThen k

/-- The optional group `(?:\s*[,、]\s*(?:para\.?|paragraph)\s*\.?\s*(\d+))?`
of `ID_BASED`; presence has priority. -/
def idParaGroupOptThen {α : Type} (k : Option (List Char) → List Char → Option α) :
    List Char → Option α :=
  fun l =>
    oalt
      (wsStarThen
        (charThen [',', '、']
          (wsStarThen
            (kwParagraphIdThen
              (wsStarThen
                (charLitOptThen '.'
                  (wsStarThen (digitsThen fun ds rest => k (some ds) rest))))))) l)
      (k none l)

/-- Embedding of `ID_BASED =
`​`/^(act-\d+-\d{4})\s*[,、]\s*(?:art\.?|article)\s*\.?\s*(\d+)(?:\s*[,、]\s*(?:para\.?|paragraph)\s*\.?\s*(\d+))?$/i`.
The code re-runs `/act-(\d+)-(\d{4})/` on group 1 to split the identifier;
on a string of the shape `act-<digits>-<4 digits>` that inner search
always succeeds with exactly those digit runs, which the matcher returns
directly. -/
def matchIdBased (l : List Char) : Option IdGroups :=
  litCIThen "act-".data
    (digitsThen fun no rest =>
      litThen '-'
        (digits4Then fun yr rest2 =>
          wsStarThen
            (charThen [',', '、']
              (wsStarThen
                (kwArticleIdThen
                  (wsStarThen
                    (charLitOptThen '.'
                      (wsStarThen
                        (digitsThen fun art rest3 =>
                          idParaGroupOptThen
                            (fun para rest4 =>
                              if rest4.isEmpty then
                                some ⟨l.take (l.length - rest2.length), no, yr, art, para⟩
                              else none)
                            rest3)))))))
            rest2)
        rest)
    l

/-- Shared algorithm of `parseArticleNumber` / `parseParagraphNumber` /
`parseItemNumber` of `kanji-numerals.ts`, which are textually identical up
to the wrapper marker (`条` / `項` / `号`): strip the anchored wrapper
`^第(.+?)mark` if present; an all-digit payload is returned unchanged, a
convertible numeral is converted, and anything else falls through
unchanged (conversion result 0 falls back to the raw text). -/
def parseWrappedNumber (mark : Char) (ref : String) : String :=
  match japSubCapThen mark (fun inner _rest => some inner) (jsTrim ref).data with
  | some inner =>
    if ¬inner.isEmpty ∧ inner.all jsIsDigit then ⟨inner⟩
    else if kanjiToArabicL inner > 0 then natToDecStr (kanjiToArabicL inner) else ⟨inner⟩
  | none =>
    if ¬(jsTrim ref).data.isEmpty ∧ (jsTrim ref).data.all jsIsDigit then jsTrim ref
    else if kanjiToArabicL (jsTrim ref).data > 0 then natToDecStr (kanjiToArabicL (jsTrim ref).data)
    else jsTrim ref

/-- Embedding of `parseArticleNumber`. -/
def parseArticleNumber (ref : String) : String :=
  parseWrappedNumber '条' ref

/-- Embedding of `parseParagraphNumber`. -/
def parseParagraphNumber (ref : String) : String :=
  parseWrappedNumber '項' ref

/-- Embedding of `parseItemNumber`. -/
def parseItemNumber (ref : String) : String :=
  parseWrappedNumber '号' ref

/-- Embedding of the `ParsedCitation` interface (`types/index.ts`); the
TS string-union `type` field is modelled as a `String`. -/
structure ParsedCitation where
  valid : Bool
  type : String
  title : Option String := none
  title_en : Option String := none
  law_number : Option String := none
  year : Option Nat := none
  act_number : Option Nat := none
  article : Option String := none
  paragraph : Option String := none
  item : Option String := none
  error : Option String := none
  deriving Repr, DecidableEq

/-- The unanchored test `articleRef.match(/第(.+?)条/)` of
`parseJapaneseRef`. -/
def japArticleSearch (l : List Char) : Option (List Char) :=
  searchPat (japSubCapThen '条' fun inner _ => some inner) l

/-- The unanchored search `articleRef.match(/条(第.+?項)/)`; returns
capture group 1, i.e. `第...項`. -/
def japParaSearch (l : List Char) : Option (List Char) :=
  searchPat (litThen '条' (japSubCapThen '項' fun inner _ => some ('第' :: inner ++ ['項']))) l

/-- The unanchored search `articleRef.match(/項?(第.+?号)/)`; at each
start position the optional `項` is tried first.  Returns capture group 1,
i.e. `第...号`. -/
def japItemSearch (l : List Char) : Option (List Char) :=
  searchPat
    (fun l' =>
      oalt (litThen '項' (japSubCapThen '号' fun inner _ => some ('第' :: inner ++ ['号'])) l')
        (japSubCapThen '号' (fun inner _ => some ('第' :: inner ++ ['号'])) l'))
    l

/-- Embedding of `parseJapaneseRef(articleRef, lawName)`. -/
def parseJapaneseRef (articleRef lawName : String) : ParsedCitation :=
  { valid := true
    type := "statute"
    title := some (jsTrim lawName)
    article :=
      if (japArticleSearch articleRef.data).isSome then some (parseArticleNumber articleRef)
      else none
    paragraph := (japParaSearch articleRef.data).map fun cap => parseParagraphNumber ⟨cap⟩
    item := (japItemSearch articleRef.data).map fun cap => parseItemNumber ⟨cap⟩ }

/-- Embedding of `parseCitation`: trims, then tries the five grammars in
source order, falling back to an invalid citation naming the trimmed
input. -/
def parseCitation (citation : String) : ParsedCitation :=
  match matchJapaneseCitation (jsTrim citation).data with
  | some (g1, g2) => parseJapaneseRef ⟨g1⟩ ⟨g2⟩
  | none =>
  match matchTrailingJapanese (jsTrim citation).data with
  | some (g1, g2) => parseJapaneseRef ⟨g2⟩ ⟨g1⟩
  | none =>
  match matchEnglishFull (jsTrim citation).data with
  | some g =>
    { valid := true
      type := "statute"
      title_en := some (jsTrim ⟨g.name⟩)
      article := some ⟨g.art⟩
      paragraph := g.para.map fun p => (⟨p⟩ : String)
      item := g.item.map fun i => (⟨i⟩ : String)
      act_number := g.act.map fun a => decValue a.1
      year := g.act.map fun a => decValue a.2 }
  | none =>
  match matchShortCitation (jsTrim citation).data with
  | some g =>
    { valid := true
      type := "statute"
      title_en := some (jsTrim ⟨g.name⟩)
      article := some ⟨g.art⟩
      paragraph := g.para.map fun p => (⟨p⟩ : String) }
  | none =>
  match matchIdBased (jsTrim citation).data with
  | some g =>
    { valid := true
      type := "statute"
      title := some ⟨g.ident⟩
      article := some ⟨g.art⟩
      paragraph := g.para.map fun p => (⟨p⟩ : String)
      act_number := some (decValue g.actNo)
      year := some (decValue g.year) }
  | none =>
    { valid := false
      type := "unknown"
      error := some ("Could not parse Japanese legal citation: \"" ++ jsTrim citation ++ "\"") }

/-- JS falsiness of an optional string field: absent or the empty string. -/
def strFalsy : Option String → Bool
  | none => true
  | some s => s = ""

/-- Embedding of `buildPinpoint(parsed, isJapanese)`: for non-native
styles the paragraph and item are appended in parentheses (`if (parsed.x)`
skips absent and empty values). -/
def buildPinpoint (parsed : ParsedCitation) (isJapanese : Bool) : String :=
  let ref := parsed.article.getD ""
  if ¬isJapanese then
    let ref := if ¬strFalsy parsed.paragraph then ref ++ "(" ++ parsed.paragraph.getD "" ++ ")" else ref
    if ¬strFalsy parsed.item then ref ++ "(" ++ parsed.item.getD "" ++ ")" else ref
  else ref

/-- The `(Act No. n of y)` suffix of the `full` style; JS `&&` makes a
zero act number or year falsy, omitting the suffix. -/
def actInfoStr (parsed : ParsedCitation) : String :=
  match parsed.act_number, parsed.year with
  | some a, some y =>
    if a ≠ 0 ∧ y ≠ 0 then " (Act No. " ++ natToDecStr a ++ " of " ++ natToDecStr y ++ ")"
    else ""
  | _, _ => ""

/-- Embedding of `formatCitation(parsed, format)`; the style is modelled
as a `String` so that unknown style values exercise the `default` branch.
An invalid citation or a falsy `article` yields `""`. -/
def formatCitation (parsed : ParsedCitation) (format : String) : String :=
  if ¬parsed.valid ∨ strFalsy parsed.article then ""
  else
    let pinpoint := buildPinpoint parsed (format = "japanese")
    if format = "full" then
      let name := (parsed.title_en.orElse fun _ => parsed.title).getD ""
      jsTrim ("Article " ++ pinpoint ++ ", " ++ name ++ actInfoStr parsed)
    else if format = "short" then
      let name := (parsed.title_en.orElse fun _ => parsed.title).getD ""
      jsTrim ("Art. " ++ pinpoint ++ ", " ++ name)
    else if format = "pinpoint" then
      "Art. " ++ pinpoint
    else if format = "japanese" then
      let articleKanji := formatArticleKanji (Sum.inl (parsed.article.getD ""))
      let ref :=
        if ¬strFalsy parsed.paragraph then
          let p := parsed.paragraph.getD ""
          articleKanji ++ "第" ++
            (match jsParseInt p with
             | none => p
             | some n => arabicToKanji n) ++ "項"
        else articleKanji
      let ref :=
        if ¬strFalsy parsed.item then
          let i := parsed.item.getD ""
          ref ++ "第" ++
            (match jsParseInt i with
             | none => i
             | some n => arabicToKanji n) ++ "号"
        else ref
      let name := (parsed.title.orElse fun _ => parsed.title_en).getD ""
      jsTrim (ref ++ " " ++ name)
    else
      jsTrim ("Article " ++ pinpoint ++ ", " ++ (parsed.title_en.orElse fun _ => parsed.title).getD "")

/-- One row of the `legal_documents` table of the external store. -/
structure DocRow where
  id : String
  title : String
  title_en : Option String
  short_name : String
  status : String
  deriving Repr, DecidableEq

/-- One row of the `legal_provisions` table of the external store; `sect`
embeds the `section` column (`section` is a Lean keyword). -/
structure ProvisionRow where
  document_id : String
  provision_ref : String
  sect : String
  deriving Repr, DecidableEq

/-- The external document/provision store, modelled at the interface the
validator consumes (two keyed lookups over in-memory rows). -/
structure Database where
  docs : List DocRow
  provisions : List ProvisionRow

/-- ASCII-lowered character list (SQLite `LIKE` folds ASCII case). -/
def asciiLower (l : List Char) : List Char :=
  l.map Char.toLower

/-- Contiguous sublist test (for the `%term%` containment of `LIKE`). -/
def subListOf (needle : List Char) : List Char → Bool
  | [] => needle.isEmpty
  | c :: rest => needle.isPrefixOf (c :: rest) || subListOf needle rest

/-- Fuzzy containment `field LIKE '%term%'` of the document lookup. -/
def likeContains (field term : String) : Bool :=
  subListOf (asciiLower term.data) (asciiLower field.data)

/-- The document lookup of `validateCitation`: first row whose title,
English title or short name contains the search term, or whose id equals
it (`LIMIT 1`). -/
def findDoc (db : Database) (term : String) : Option DocRow :=
  db.docs.find? fun d =>
    likeContains d.title term ||
    (match d.title_en with
     | some te => likeContains te term
     | none => false) ||
    likeContains d.short_name term ||
    d.id = term

/-- The provision lookup of `validateCitation`: a row of the document
matching by the `art-<n>` reference convention, by bare section equality,
or by `provision_ref LIKE 'art-<n>%'` (prefix match). -/
def findProvision (db : Database) (docId art : String) : Bool :=
  db.provisions.any fun p =>
    p.document_id = docId &&
      (p.provision_ref = "art-" ++ art || p.sect = art ||
        (asciiLower ("art-" ++ art).data).isPrefixOf (asciiLower p.provision_ref.data))

/-- Embedding of the `ValidationResult` interface. -/
structure ValidationResult where
  citation : ParsedCitation
  document_exists : Bool
  provision_exists : Bool
  document_title : Option String := none
  status : Option String := none
  warnings : List String
  deriving Repr, DecidableEq

/-- The search term of the document lookup:
`parsed.title ?? parsed.title_en ?? ''`. -/
def validateSearchTerm (parsed : ParsedCitation) : String :=
  (parsed.title.orElse fun _ => parsed.title_en).getD ""

/-- Embedding of `validateCitation(db, citation)`. -/
def validateCitation (db : Database) (citation : String) : ValidationResult :=
  if ¬(parseCitation citation).valid then
    { citation := parseCitation citation
      document_exists := false
      provision_exists := false
      warnings := [(parseCitation citation).error.getD "Invalid citation format"] }
  else
    match findDoc db (validateSearchTerm (parseCitation citation)) with
    | none =>
      { citation := parseCitation citation
        document_exists := false
        provision_exists := false
        warnings := ["Document \"" ++ validateSearchTerm (parseCitation citation) ++
          "\" not found in database"] }
    | some doc =>
      match (parseCitation citation).article with
      | some art =>
        { citation := parseCitation citation
          document_exists := true
          provision_exists := findProvision db doc.id art
          document_title := some doc.title
          status := some doc.status
          warnings :=
            (if doc.status = "repealed" then ["This statute has been repealed"] else []) ++
            (if findProvision db doc.id art then []
             else ["Article " ++ art ++ " not found in " ++ doc.title]) }
      | none =>
        { citation := parseCitation citation
          document_exists := true
          provision_exists := false
          document_title := some doc.title
          status := some doc.status
          warnings :=
            if doc.status = "repealed" then ["This statute has been repealed"] else [] }

/-- Embedding of the input of `formatCitationTool`. -/
structure FormatCitationInput where
  citation : String
  format : Option String := none

/-- Embedding of the `results` record of `formatCitationTool` (the
`_metadata` companion is I/O plumbing outside this core). -/
structure FormatCitationResult where
  input : String
  formatted : String
  formatted_japanese : String
  type : String
  valid : Bool
  error : Option String := none
  deriving Repr, DecidableEq

/-- Embedding of `formatCitationTool` (`src/tools/format-citation.ts`):
empty or whitespace-only input short-circuits; a failed parse passes the
input through as `formatted`; otherwise both the requested and the
`japanese` renderings are produced. -/
def formatCitationTool (input : FormatCitationInput) : FormatCitationResult :=
  if jsTrim input.citation = "" then
    { input := "", formatted := "", formatted_japanese := "", type := "unknown",
      valid := false, error := some "Empty citation" }
  else if ¬(parseCitation input.citation).valid then
    { input := input.citation, formatted := input.citation, formatted_japanese := "",
      type := "unknown", valid := false, error := (parseCitation input.citation).error }
  else
    { input := input.citation
      formatted := formatCitation (parseCitation input.citation) (input.format.getD "full")
      formatted_japanese := formatCitation (parseCitation input.citation) "japanese"
      type := (parseCitation input.citation).type
      valid := true }

/-- The normalization guarantee of the numeral-reference fields: either an
all-digit string, or the raw reference text whose numeral conversion
failed (yielded 0) and was therefore passed through unchanged. -/
def digitsOrFallback (v : String) : Bool :=
  v.data.all jsIsDigit || (kanjiToArabicL v.data == 0)

/-- Inversion property of a keyword matcher: any success factors through
its continuation. -/
def KwInv (kw : {β : Type} → (List Char → Option β) → List Char → Option β) : Prop :=
  ∀ (β : Type) (k : List Char → Option β) (l : List Char) (v : β),
    kw k l = some v → ∃ r, k r = some v

/-! Helper lemmas for the numeral round trip (claim C3). -/

/-- Each decimal digit 0–9 has a single-character Kanji rendering whose
table lookup recovers the digit. -/
lemma kanjiDigitChars_spec (d : Nat) (hd : d ≤ 9) :
    ∃ c, kanjiDigitChars d = [c] ∧ kanjiDigit? c = some d := by
  interval_cases d <;> exact ⟨_, rfl, by decide⟩

/-- Multiplier characters are not simple digits. -/
lemma kanjiDigit?_of_mult {c : Char} {m : Nat} (h : kanjiMult? c = some m) :
    kanjiDigit? c = none := by
  unfold kanjiMult? at h
  split_ifs at h with h1 h2 h3
  · subst h1; decide
  · subst h2; decide
  · subst h3; decide

/-- Loop step on a multiplier character. -/
lemma kanjiStep_mult {c : Char} {m : Nat} (h : kanjiMult? c = some m) (r cur : Nat) :
    kanjiStep (r, cur) c = (r + (if cur = 0 then 1 else cur) * m, 0) := by
  simp [kanjiStep, kanjiDigit?_of_mult h, h]

/-- Loop step on a simple digit character. -/
lemma kanjiStep_digit {c : Char} {d : Nat} (h : kanjiDigit? c = some d) (r cur : Nat) :
    kanjiStep (r, cur) c = (r, d) := by
  simp [kanjiStep, h]

/-- Folding the loop over one place contributes `coef * mult` and resets
the current digit. -/
lemma foldl_kanjiPlace {coef : Nat} (hc : coef ≤ 9) {m : Char} {mv : Nat}
    (hm : kanjiMult? m = some mv) (r : Nat) :
    (kanjiPlace coef m).foldl kanjiStep (r, 0) = (r + coef * mv, 0) := by
  match coef, hc with
  | 0, _ => simp [kanjiPlace]
  | 1, _ => simp [kanjiPlace, kanjiStep_mult hm]
  | (k + 2), hc =>
    obtain ⟨c, hc1, hc2⟩ := kanjiDigitChars_spec (k + 2) hc
    have hpos : k + 2 > 0 := by omega
    have hgt1 : k + 2 > 1 := by omega
    unfold kanjiPlace
    rw [if_pos hpos, if_pos hgt1, hc1]
    simp [List.foldl, kanjiStep_digit hc2, kanjiStep_mult hm]

/-- A positive place keeps its multiplier character in the rendering. -/
lemma mult_mem_kanjiPlace {coef : Nat} (h : 0 < coef) (m : Char) :
    m ∈ kanjiPlace coef m := by
  unfold kanjiPlace
  rw [if_pos h]
  exact List.mem_append_right _ (List.mem_singleton.2 rfl)

/-- Claim C3 — for every integer n with 1 ≤ n ≤ 9999, converting n to a
native numeral string and back is the identity:
`kanjiToArabic (arabicToKanji n) = n`. -/
theorem c3_kanji_round_trip (n : Nat) (h1 : 1 ≤ n) (h2 : n ≤ 9999) :
    kanjiToArabic (arabicToKanji (n : Int)) = n := by
  have hA : kanjiToArabic (arabicToKanji (n : Int)) = kanjiToArabicL (arabicToKanjiNatL n) := by
    simp [arabicToKanji, kanjiToArabic, if_neg (by omega : ¬((n : Int) < 0))]
  rw [hA]
  rcases Nat.lt_or_ge n 10 with hn | hn
  · interval_cases n <;> decide
  · set a := n / 1000 with ha
    set b := n % 1000 / 100 with hb
    set c := n % 100 / 10 with hc
    set d := n % 10 with hd
    have hL : arabicToKanjiNatL n =
        kanjiPlace a '千' ++ kanjiPlace b '百' ++ kanjiPlace c '十' ++
          (if d > 0 then kanjiDigitChars d else []) := by
      rw [arabicToKanjiNatL, if_neg (by omega), if_neg (by omega)]
    have ha9 : a ≤ 9 := by omega
    have hb9 : b ≤ 9 := by omega
    have hc9 : c ≤ 9 := by omega
    have hd9 : d ≤ 9 := by omega
    have hn' : n = 1000 * a + 100 * b + 10 * c + d := by omega
    -- some multiplier character occurs in the rendering
    have habc : 0 < a ∨ 0 < b ∨ 0 < c := by omega
    rw [hL]
    obtain ⟨m₀, hm₀none, hm₀mem⟩ :
        ∃ m₀, kanjiDigit? m₀ = none ∧
          m₀ ∈ kanjiPlace a '千' ++ kanjiPlace b '百' ++ kanjiPlace c '十' ++
            (if d > 0 then kanjiDigitChars d else []) := by
      rcases habc with h | h | h
      · exact ⟨'千', by decide,
          List.mem_append_left _ (List.mem_append_left _
            (List.mem_append_left _ (mult_mem_kanjiPlace h _)))⟩
      · exact ⟨'百', by decide,
          List.mem_append_left _ (List.mem_append_left _
            (List.mem_append_right _ (mult_mem_kanjiPlace h _)))⟩
      · exact ⟨'十', by decide,
          List.mem_append_left _ (List.mem_append_right _ (mult_mem_kanjiPlace h _))⟩
    have hne : (kanjiPlace a '千' ++ kanjiPlace b '百' ++ kanjiPlace c '十' ++
        (if d > 0 then kanjiDigitChars d else [])).isEmpty = false := by
      rcases hcase : kanjiPlace a '千' ++ kanjiPlace b '百' ++ kanjiPlace c '十' ++
          (if d > 0 then kanjiDigitChars d else []) with _ | _
      · rw [hcase] at hm₀mem
        exact absurd hm₀mem (List.not_mem_nil _)
      · rfl
    have hallF : ¬(((kanjiPlace a '千' ++ kanjiPlace b '百' ++ kanjiPlace c '十' ++
        (if d > 0 then kanjiDigitChars d else [])).all fun c => (kanjiDigit? c).isSome) ∧
        (kanjiPlace a '千' ++ kanjiPlace b '百' ++ kanjiPlace c '十' ++
          (if d > 0 then kanjiDigitChars d else [])).length > 1 ∧
        ¬((kanjiPlace a '千' ++ kanjiPlace b '百' ++ kanjiPlace c '十' ++
          (if d > 0 then kanjiDigitChars d else [])).any fun c => (kanjiMult? c).isSome)) := by
      rintro ⟨hall, -, -⟩
      have := List.all_eq_true.1 hall m₀ hm₀mem
      rw [hm₀none] at this
      exact absurd this (by decide)
    have hsingleF : ¬((kanjiPlace a '千' ++ kanjiPlace b '百' ++ kanjiPlace c '十' ++
        (if d > 0 then kanjiDigitChars d else [])).length = 1 ∧
        (kanjiDigit? ((kanjiPlace a '千' ++ kanjiPlace b '百' ++ kanjiPlace c '十' ++
          (if d > 0 then kanjiDigitChars d else [])).headD ' ')).isSome) := by
      rintro ⟨hlen, hhead⟩
      obtain ⟨x, hx⟩ := List.length_eq_one.1 hlen
      rw [hx] at hm₀mem hhead
      have hxm : m₀ = x := List.mem_singleton.1 hm₀mem
      rw [List.headD_cons, ← hxm, hm₀none] at hhead
      exact absurd hhead (by decide)
    have hfold : (kanjiPlace a '千' ++ kanjiPlace b '百' ++ kanjiPlace c '十' ++
        (if d > 0 then kanjiDigitChars d else [])).foldl kanjiStep (0, 0) =
        (0 + a * 1000 + b * 100 + c * 10, d) := by
      have hmThousand : kanjiMult? '千' = some 1000 := by decide
      have hmHundred : kanjiMult? '百' = some 100 := by decide
      have hmTen : kanjiMult? '十' = some 10 := by decide
      rw [List.foldl_append, List.foldl_append, List.foldl_append]
      rw [foldl_kanjiPlace ha9 hmThousand 0]
      rw [foldl_kanjiPlace hb9 hmHundred _]
      rw [foldl_kanjiPlace hc9 hmTen _]
      rcases Nat.eq_zero_or_pos d with hd0 | hdpos
      · rw [if_neg (by omega), List.foldl_nil, hd0]
      · obtain ⟨cd, hcd1, hcd2⟩ := kanjiDigitChars_spec d hd9
        rw [if_pos hdpos, hcd1, List.foldl_cons, kanjiStep_digit hcd2, List.foldl_nil]
    rw [kanjiToArabicL, if_neg (by rw [hne]; exact Bool.false_ne_true),
      if_neg hallF, if_neg hsingleF, hfold]
    omega

/-- Witness for claim C3 at n = 17. -/
theorem c3_kanji_round_trip_witness :
    1 ≤ 17 ∧ 17 ≤ 9999 ∧ kanjiToArabic (arabicToKanji (17 : Nat)) = 17 :=
  ⟨by decide, by decide, c3_kanji_round_trip 17 (by decide) (by decide)⟩

/-- Claim C6 — parsing `第十七条 個人情報の保護に関する法律` yields a valid
citation with article `17` and the native title, and formatting that parse
result in the `japanese` style reproduces the input exactly (parse/format
round trip). -/
theorem c6_parse_format_round_trip :
    (parseCitation "第十七条 個人情報の保護に関する法律").valid = true ∧
    (parseCitation "第十七条 個人情報の保護に関する法律").article = some "17" ∧
    (parseCitation "第十七条 個人情報の保護に関する法律").title =
      some "個人情報の保護に関する法律" ∧
    formatCitation (parseCitation "第十七条 個人情報の保護に関する法律") "japanese" =
      "第十七条 個人情報の保護に関する法律" := by
  refine ⟨rfl, rfl, rfl, rfl⟩

/-- Claim C10 — the bare native article reference `第十七条` (no law name)
matches none of the grammars: the parse is invalid, of unknown type, with
a non-empty error. -/
theorem c10_bare_article_invalid :
    (parseCitation "第十七条").valid = false ∧
    (parseCitation "第十七条").type = "unknown" ∧
    (parseCitation "第十七条").error =
      some "Could not parse Japanese legal citation: \"第十七条\"" ∧
    (parseCitation "第十七条").error ≠ some "" := by
  refine ⟨rfl, rfl, rfl, by decide⟩

/-- Claim C2 — the code does NOT extract the item numeral from its own
wrapper: on `第十七条第一項第三号 個人情報の保護に関する法律` the unanchored
item regex `/項?(第.+?号)/` matches at position 0, so the whole reference
block `第十七条第一項第三号` is handed to `parseItemNumber`, whose loop
converts the garbage payload `十七条第一項第三` to 13.  The parse therefore
yields item `"13"` where the spec requires `"3"`. -/
theorem c2_item_extraction_bug :
    (parseCitation "第十七条第一項第三号 個人情報の保護に関する法律").article = some "17" ∧
    (parseCitation "第十七条第一項第三号 個人情報の保護に関する法律").paragraph = some "1" ∧
    (parseCitation "第十七条第一項第三号 個人情報の保護に関する法律").item = some "13" ∧
    (parseCitation "第十七条第一項第三号 個人情報の保護に関する法律").item ≠ some "3" := by
  refine ⟨rfl, rfl, rfl, by decide⟩

/-- Counterexample to claim C1 as stated — on input `第あ条 X` the parser
populates `article` with the non-digit fallback string `あ` (the wrapper
payload is not a convertible numeral, so it is passed through unchanged). -/
theorem c1_counterexample :
    (parseCitation "第あ条 X").article = some "あ" ∧
    ("あ" : String).data.all jsIsDigit = false := by
  refine ⟨rfl, by decide⟩

/-- Counterexample to claim C8 as stated — `"17abc"` is not a valid
positive integer, yet `formatArticleKanji` does not fall back to wrapping
the raw input: JS `parseInt` reads the leading digits 17, producing
`第十七条` instead of `第17abc条`. -/
theorem c8_counterexample :
    formatArticleKanji (Sum.inl "17abc") = "第十七条" ∧
    formatArticleKanji (Sum.inl "17abc") ≠ "第17abc条" := by
  refine ⟨rfl, by decide⟩

/-- Validity of `parseJapaneseRef` results (a plain record with
`valid := true`). -/
lemma parseJapaneseRef_valid (a b : String) : (parseJapaneseRef a b).valid = true :=
  rfl

/-- Case analysis of `parseCitation`: every grammar branch produces a
valid citation, and the fallthrough produces exactly the invalid record
naming the trimmed input. -/
lemma parseCitation_valid_or (s : String) :
    (parseCitation s).valid = true ∨
    parseCitation s =
      { valid := false
        type := "unknown"
        error := some ("Could not parse Japanese legal citation: \"" ++ jsTrim s ++ "\"") } := by
  unfold parseCitation
  split
  · exact Or.inl (parseJapaneseRef_valid _ _)
  split
  · exact Or.inl (parseJapaneseRef_valid _ _)
  split
  · exact Or.inl rfl
  split
  · exact Or.inl rfl
  split
  · exact Or.inl rfl
  · exact Or.inr rfl

/-- Length of the fallback diagnostic (strictly positive, so the error is
never the empty string). -/
lemma parse_error_ne_empty (s : String) :
    ("Could not parse Japanese legal citation: \"" ++ jsTrim s ++ "\"") ≠ "" := by
  intro h
  have hlen := congrArg String.length h
  rw [String.length_append, String.length_append] at hlen
  have h1 : 1 ≤ ("\"" : String).length := by decide
  have h0 : ("" : String).length = 0 := by decide
  omega

/-- Claim C4 — an invalid parse (`valid = false`) carries `type` unknown
and a non-empty error naming the trimmed input, and populates no other
field. -/
theorem c4_invalid_parse_fields (s : String)
    (h : (parseCitation s).valid = false) :
    (parseCitation s).type = "unknown" ∧
    (parseCitation s).error =
      some ("Could not parse Japanese legal citation: \"" ++ jsTrim s ++ "\"") ∧
    (parseCitation s).error ≠ some "" ∧
    (parseCitation s).title = none ∧
    (parseCitation s).title_en = none ∧
    (parseCitation s).law_number = none ∧
    (parseCitation s).year = none ∧
    (parseCitation s).act_number = none ∧
    (parseCitation s).article = none ∧
    (parseCitation s).paragraph = none ∧
    (parseCitation s).item = none := by
  rcases parseCitation_valid_or s with hv | he
  · rw [hv] at h
    exact absurd h (by decide)
  · rw [he]
    refine ⟨rfl, rfl, ?_, rfl, rfl, rfl, rfl, rfl, rfl, rfl, rfl⟩
    intro hsome
    exact parse_error_ne_empty s (Option.some.inj hsome)

/-- Witness for claim C4 at the unparseable input `@@`. -/
theorem c4_invalid_parse_fields_witness :
    (parseCitation "@@").valid = false ∧
    ((parseCitation "@@").type = "unknown" ∧
      (parseCitation "@@").error =
        some ("Could not parse Japanese legal citation: \"" ++ jsTrim "@@" ++ "\"") ∧
      (parseCitation "@@").error ≠ some "" ∧
      (parseCitation "@@").title = none ∧
      (parseCitation "@@").title_en = none ∧
      (parseCitation "@@").law_number = none ∧
      (parseCitation "@@").year = none ∧
      (parseCitation "@@").act_number = none ∧
      (parseCitation "@@").article = none ∧
      (parseCitation "@@").paragraph = none ∧
      (parseCitation "@@").item = none) :=
  ⟨by decide, c4_invalid_parse_fields "@@" (by decide)⟩

/-- Claim C5 — formatting an invalid citation, or one without an article,
returns the empty string for every style value (the formatter is total
and encodes failure in its return value). -/
theorem c5_format_invalid_empty (p : ParsedCitation) (style : String)
    (h : p.valid = false ∨ p.article = none) :
    formatCitation p style = "" := by
  unfold formatCitation
  rw [if_pos]
  rcases h with h | h
  · exact Or.inl (by simp [h])
  · exact Or.inr (by simp [strFalsy, h])

/-- Witness for claim C5: an invalid record formatted with an unknown
style value. -/
theorem c5_format_invalid_empty_witness :
    ({ valid := false, type := "unknown" } : ParsedCitation).valid = false ∧
    formatCitation { valid := false, type := "unknown" } "no-such-style" = "" :=
  ⟨rfl, c5_format_invalid_empty { valid := false, type := "unknown" } "no-such-style"
    (Or.inl rfl)⟩

/-- Digit characters are not JS whitespace. -/
lemma jsIsDigit_not_ws {c : Char} (h : jsIsDigit c = true) : isJsWs c = false := by
  simp only [jsIsDigit, decide_eq_true_eq] at h
  simp only [isJsWs, decide_eq_false_iff_not]
  omega

/-- Digit characters are not a sign character. -/
lemma jsIsDigit_not_sign {c : Char} (h : jsIsDigit c = true) : c ≠ '-' ∧ c ≠ '+' := by
  simp only [jsIsDigit, decide_eq_true_eq] at h
  constructor <;> intro he <;> subst he <;> simp at h


/-- On a non-empty all-digit string, `parseInt` returns exactly its
decimal value. -/
lemma jsParseInt_digits (l : List Char) (hne : l ≠ []) (hall : l.all jsIsDigit = true) :
    jsParseInt ⟨l⟩ = some ((decValue l : Nat) : Int) := by
  rcases l with _ | ⟨c, rest⟩
  · exact absurd rfl hne
  have hcd : jsIsDigit c = true := by
    have := List.all_eq_true.1 hall c (List.mem_cons_self c rest)
    exact this
  have hdrop : (c :: rest).dropWhile isJsWs = c :: rest := by
    rw [List.dropWhile_cons, jsIsDigit_not_ws hcd]
    simp
  have htake : (c :: rest).takeWhile jsIsDigit = c :: rest := by
    rw [List.takeWhile_eq_self_iff]
    intro x hx
    exact List.all_eq_true.1 hall x hx
  obtain ⟨hm, hp⟩ := jsIsDigit_not_sign hcd
  unfold jsParseInt jsParseIntSign jsParseIntBody
  dsimp only
  rw [hdrop]
  simp only [List.headD_cons, if_neg hm, if_neg (by simp [hm, hp] : ¬(c = '-' ∨ c = '+'))]
  rw [htake]
  simp

/-- Claim C8 (amended) — `formatArticleKanji` wraps the Kanji rendering of
the parsed value whenever JS `parseInt` reads a positive integer from the
input (in particular on every positive all-digit string and every positive
integer), and falls back to wrapping the raw input unchanged exactly when
`parseInt` yields `NaN` or a non-positive value; it never throws. -/
theorem c8_format_article_kanji (s : String) (n : Int) :
    (jsParseInt s = none → formatArticleKanji (Sum.inl s) = "第" ++ s ++ "条") ∧
    (∀ m : Int, jsParseInt s = some m → m ≤ 0 →
      formatArticleKanji (Sum.inl s) = "第" ++ s ++ "条") ∧
    (∀ m : Int, jsParseInt s = some m → 0 < m →
      formatArticleKanji (Sum.inl s) = "第" ++ arabicToKanji m ++ "条") ∧
    (s.data ≠ [] → s.data.all jsIsDigit = true → 0 < decValue s.data →
      formatArticleKanji (Sum.inl s) = "第" ++ arabicToKanji (decValue s.data) ++ "条") ∧
    (0 < n → formatArticleKanji (Sum.inr n) = "第" ++ arabicToKanji n ++ "条") ∧
    (n ≤ 0 → formatArticleKanji (Sum.inr n) = "第" ++ intToDecStr n ++ "条") := by
  refine ⟨?_, ?_, ?_, ?_, ?_, ?_⟩
  · intro h
    unfold formatArticleKanji
    simp only [articleKanjiNum, articleKanjiRaw]
    rw [h]
  · intro m h hm
    unfold formatArticleKanji
    simp only [articleKanjiNum, articleKanjiRaw]
    rw [h]
    simp [if_pos hm]
  · intro m h hm
    unfold formatArticleKanji
    simp only [articleKanjiNum, articleKanjiRaw]
    rw [h]
    simp [if_neg (by omega : ¬m ≤ 0)]
  · intro hne hall hpos
    have hs : (⟨s.data⟩ : String) = s := rfl
    have hji := jsParseInt_digits s.data hne hall
    rw [hs] at hji
    unfold formatArticleKanji
    simp only [articleKanjiNum, articleKanjiRaw]
    rw [hji]
    have hnle : ¬((decValue s.data : Int) ≤ 0) := by
      simp only [Int.not_le]
      exact_mod_cast hpos
    dsimp only
    rw [if_neg hnle]
  · intro h
    unfold formatArticleKanji
    simp only [articleKanjiNum, articleKanjiRaw]
    simp [if_neg (by omega : ¬n ≤ 0)]
  · intro h
    unfold formatArticleKanji
    simp only [articleKanjiNum, articleKanjiRaw]
    simp [if_pos h]

/-- Witness for claim C8: the digit string `"17"` renders as `第十七条`,
and the non-numeric string `"abc"` falls back to raw wrapping. -/
theorem c8_format_article_kanji_witness :
    ("17" : String).data ≠ [] ∧ ("17" : String).data.all jsIsDigit = true ∧
    0 < decValue ("17" : String).data ∧
    formatArticleKanji (Sum.inl "17") = "第" ++ arabicToKanji (decValue ("17" : String).data) ++ "条" ∧
    jsParseInt "abc" = none ∧
    formatArticleKanji (Sum.inl "abc") = "第" ++ "abc" ++ "条" :=
  ⟨by decide, by decide, by decide,
    (c8_format_article_kanji "17" 1).2.2.2.1 (by decide) (by decide) (by decide),
    by decide,
    (c8_format_article_kanji "abc" 1).1 (by decide)⟩

/-- Claim C9 — the tool layer's error paths: empty or whitespace-only
input short-circuits to the fixed empty-citation record; a non-empty
input whose parse fails is passed through unchanged as `formatted` with
the parser's error. -/
theorem c9_format_tool_error_paths (inp : String) (fmt : Option String) :
    (jsTrim inp = "" → formatCitationTool ⟨inp, fmt⟩ =
      { input := "", formatted := "", formatted_japanese := "", type := "unknown",
        valid := false, error := some "Empty citation" }) ∧
    (jsTrim inp ≠ "" → (parseCitation inp).valid = false →
      formatCitationTool ⟨inp, fmt⟩ =
      { input := inp, formatted := inp, formatted_japanese := "", type := "unknown",
        valid := false, error := (parseCitation inp).error }) := by
  constructor
  · intro h
    unfold formatCitationTool
    rw [if_pos h]
  · intro h1 h2
    unfold formatCitationTool
    rw [if_neg h1, if_pos (by simp [h2])]

/-- Witness for claim C9 at the whitespace-only input `" "` and the
unparseable input `@@`.  Both conjuncts of the theorem are exercised. -/
theorem c9_format_tool_error_paths_witness :
    (jsTrim "  " = "" ∧ formatCitationTool ⟨"  ", none⟩ =
      { input := "", formatted := "", formatted_japanese := "", type := "unknown",
        valid := false, error := some "Empty citation" }) ∧
    (jsTrim "@@!" ≠ "" ∧ (parseCitation "@@!").valid = false ∧
      formatCitationTool ⟨"@@!", none⟩ =
      { input := "@@!", formatted := "@@!", formatted_japanese := "", type := "unknown",
        valid := false, error := (parseCitation "@@!").error }) :=
  ⟨⟨by decide, (c9_format_tool_error_paths "  " none).1 (by decide)⟩,
    ⟨by decide, by decide,
      (c9_format_tool_error_paths "@@!" none).2 (by decide) (by decide)⟩⟩

/-- Claim C7 — for a valid parsed citation whose document lookup yields a
repealed document and whose provision lookup finds nothing, the validator
reports the document as existing, the provision as missing, and issues
both the repeal warning and the provision-not-found warning. -/
theorem c7_validate_repealed_missing_provision (db : Database) (cit : String)
    (doc : DocRow) (art : String)
    (hvalid : (parseCitation cit).valid = true)
    (hart : (parseCitation cit).article = some art)
    (hdoc : findDoc db (validateSearchTerm (parseCitation cit)) = some doc)
    (hrep : doc.status = "repealed")
    (hprov : findProvision db doc.id art = false) :
    (validateCitation db cit).document_exists = true ∧
    (validateCitation db cit).provision_exists = false ∧
    "This statute has been repealed" ∈ (validateCitation db cit).warnings ∧
    ("Article " ++ art ++ " not found in " ++ doc.title) ∈ (validateCitation db cit).warnings := by
  unfold validateCitation
  rw [if_neg (by simp [hvalid]), hdoc]
  dsimp only
  rw [hart]
  dsimp only
  rw [hprov, if_pos hrep]
  simp

/-- Witness for claim C7: a store holding one repealed APPI row and no
provisions, validated against the native citation of article 17. -/
theorem c7_validate_repealed_missing_provision_witness :
    (parseCitation "第十七条 個人情報の保護に関する法律").valid = true ∧
    (parseCitation "第十七条 個人情報の保護に関する法律").article = some "17" ∧
    findDoc ⟨[⟨"appi", "個人情報の保護に関する法律", some "APPI", "APPI", "repealed"⟩], []⟩
      (validateSearchTerm (parseCitation "第十七条 個人情報の保護に関する法律")) =
      some ⟨"appi", "個人情報の保護に関する法律", some "APPI", "APPI", "repealed"⟩ ∧
    ((validateCitation ⟨[⟨"appi", "個人情報の保護に関する法律", some "APPI", "APPI", "repealed"⟩], []⟩
        "第十七条 個人情報の保護に関する法律").document_exists = true ∧
      (validateCitation ⟨[⟨"appi", "個人情報の保護に関する法律", some "APPI", "APPI", "repealed"⟩], []⟩
        "第十七条 個人情報の保護に関する法律").provision_exists = false ∧
      "This statute has been repealed" ∈
        (validateCitation ⟨[⟨"appi", "個人情報の保護に関する法律", some "APPI", "APPI", "repealed"⟩], []⟩
          "第十七条 個人情報の保護に関する法律").warnings ∧
      ("Article " ++ "17" ++ " not found in " ++ "個人情報の保護に関する法律") ∈
        (validateCitation ⟨[⟨"appi", "個人情報の保護に関する法律", some "APPI", "APPI", "repealed"⟩], []⟩
          "第十七条 個人情報の保護に関する法律").warnings) :=
  ⟨by decide, by decide, by decide,
    c7_validate_repealed_missing_provision
      ⟨[⟨"appi", "個人情報の保護に関する法律", some "APPI", "APPI", "repealed"⟩], []⟩
      "第十七条 個人情報の保護に関する法律"
      ⟨"appi", "個人情報の保護に関する法律", some "APPI", "APPI", "repealed"⟩ "17"
      (by decide) (by decide) (by decide) rfl (by decide)⟩

/-! Inversion lemmas for the regex combinators: every success of a
combinator factors through its continuation, and digit captures are
all-digit lists.  These drive the normalization claim C1. -/

/-- Alternation inversion. -/
lemma oalt_eq_some {α : Type} {a b : Option α} {v : α} (h : oalt a b = some v) :
    a = some v ∨ b = some v := by
  unfold oalt at h
  cases a with
  | some w => exact Or.inl h
  | none => exact Or.inr h

/-- Literal-character inversion. -/
lemma litThen_eq_some {α : Type} {ch : Char} {k : List Char → Option α} {l : List Char}
    {v : α} (h : litThen ch k l = some v) : ∃ r, k r = some v := by
  unfold litThen at h
  split at h
  · split at h
    · exact ⟨_, h⟩
    · simp at h
  · simp at h

/-- Case-insensitive keyword inversion. -/
lemma litCIThen_eq_some {α : Type} {kw : List Char} {k : List Char → Option α}
    {l : List Char} {v : α} (h : litCIThen kw k l = some v) : ∃ r, k r = some v := by
  induction kw generalizing l with
  | nil => exact ⟨l, h⟩
  | cons kc krest ih =>
    unfold litCIThen at h
    split at h
    · simp at h
    · split at h
      · exact ih h
      · simp at h

/-- Greedy `\s*` inversion. -/
lemma wsStarThen_eq_some {α : Type} {k : List Char → Option α} {l : List Char} {v : α}
    (h : wsStarThen k l = some v) : ∃ r, k r = some v := by
  induction l with
  | nil => exact ⟨[], h⟩
  | cons c rest ih =>
    unfold wsStarThen at h
    split at h
    · rcases oalt_eq_some h with h' | h'
      · exact ih h'
      · exact ⟨c :: rest, h'⟩
    · exact ⟨c :: rest, h⟩

/-- Greedy `\s+` inversion. -/
lemma wsPlusThen_eq_some {α : Type} {k : List Char → Option α} {l : List Char} {v : α}
    (h : wsPlusThen k l = some v) : ∃ r, k r = some v := by
  cases l with
  | nil => simp [wsPlusThen] at h
  | cons c rest =>
    rw [show wsPlusThen k (c :: rest) =
      if isJsWs c then wsStarThen k rest else none from rfl] at h
    split at h
    · exact wsStarThen_eq_some h
    · simp at h

/-- Optional character class inversion. -/
lemma charOptThen_eq_some {α : Type} {cs : List Char} {k : List Char → Option α}
    {l : List Char} {v : α} (h : charOptThen cs k l = some v) : ∃ r, k r = some v := by
  unfold charOptThen at h
  split at h
  · split at h
    · rcases oalt_eq_some h with h' | h'
      · exact ⟨_, h'⟩
      · exact ⟨_, h'⟩
    · exact ⟨_, h⟩
  · exact ⟨_, h⟩

/-- Mandatory character class inversion. -/
lemma charThen_eq_some {α : Type} {cs : List Char} {k : List Char → Option α}
    {l : List Char} {v : α} (h : charThen cs k l = some v) : ∃ r, k r = some v := by
  unfold charThen at h
  split at h
  · split at h
    · exact ⟨_, h⟩
    · simp at h
  · simp at h

/-- Optional literal character inversion. -/
lemma charLitOptThen_eq_some {α : Type} {ch : Char} {k : List Char → Option α}
    {l : List Char} {v : α} (h : charLitOptThen ch k l = some v) : ∃ r, k r = some v := by
  unfold charLitOptThen at h
  rcases oalt_eq_some h with h' | h'
  · exact litThen_eq_some h'
  · exact ⟨_, h'⟩

/-- Lazy-dot expansion loop inversion. -/
lemma lazyDotPlusGo_eq_some {α : Type} {k : List Char → List Char → Option α}
    {acc l : List Char} {v : α} (h : lazyDotPlusGo k acc l = some v) :
    ∃ i r, k i r = some v := by
  induction l generalizing acc with
  | nil => exact ⟨acc, [], h⟩
  | cons c rest ih =>
    unfold lazyDotPlusGo at h
    rcases oalt_eq_some h with h' | h'
    · exact ⟨acc, c :: rest, h'⟩
    · split at h'
      · simp at h'
      · exact ih h'

/-- Lazy `(.+?)` inversion. -/
lemma lazyDotPlusThen_eq_some {α : Type} {k : List Char → List Char → Option α}
    {l : List Char} {v : α} (h : lazyDotPlusThen k l = some v) :
    ∃ i r, k i r = some v := by
  cases l with
  | nil => simp [lazyDotPlusThen] at h
  | cons c rest =>
    rw [show lazyDotPlusThen k (c :: rest) =
      if isLineTerm c then none else lazyDotPlusGo k [c] rest from rfl] at h
    split at h
    · simp at h
    · exact lazyDotPlusGo_eq_some h

/-- Digit-run capture inversion: the capture is an all-digit list. -/
lemma digitsThen_eq_some {α : Type} {k : List Char → List Char → Option α}
    {l : List Char} {v : α} (h : digitsThen k l = some v) :
    ∃ ds r, ds.all jsIsDigit = true ∧ k ds r = some v := by
  unfold digitsThen at h
  split at h
  · simp at h
  · refine ⟨l.takeWhile jsIsDigit, l.drop (l.takeWhile jsIsDigit).length, ?_, h⟩
    rw [List.all_eq_true]
    intro x hx
    exact List.mem_takeWhile_imp hx

/-- Four-digit capture inversion. -/
lemma digits4Then_eq_some {α : Type} {k : List Char → List Char → Option α}
    {l : List Char} {v : α} (h : digits4Then k l = some v) :
    ∃ ds r, ds.all jsIsDigit = true ∧ k ds r = some v := by
  unfold digits4Then at h
  split at h
  · rename_i a b c d rest
    split at h
    · rename_i habcd
      exact ⟨[a, b, c, d], rest, by simp [habcd.1, habcd.2.1, habcd.2.2.1, habcd.2.2.2], h⟩
    · simp at h
  · simp at h

/-- Inversion for the full-grammar article keyword. -/
lemma kwArticleFullThen_eq_some {α : Type} {k : List Char → Option α} {l : List Char}
    {v : α} (h : kwArticleFullThen k l = some v) : ∃ r, k r = some v := by
  unfold kwArticleFullThen at h
  rcases oalt_eq_some h with h' | h'
  · exact litCIThen_eq_some h'
  · obtain ⟨r, hr⟩ := litCIThen_eq_some h'
    exact charLitOptThen_eq_some hr

/-- Inversion for the full-grammar paragraph keyword. -/
lemma kwParagraphFullThen_eq_some {α : Type} {k : List Char → Option α} {l : List Char}
    {v : α} (h : kwParagraphFullThen k l = some v) : ∃ r, k r = some v := by
  unfold kwParagraphFullThen at h
  rcases oalt_eq_some h with h' | h'
  · exact litCIThen_eq_some h'
  · rcases oalt_eq_some h' with h'' | h'' <;>
      · obtain ⟨r, hr⟩ := litCIThen_eq_some h''
        exact charLitOptThen_eq_some hr

/-- Inversion for the short-grammar article keyword. -/
lemma kwArticleShortThen_eq_some {α : Type} {k : List Char → Option α} {l : List Char}
    {v : α} (h : kwArticleShortThen k l = some v) : ∃ r, k r = some v := by
  unfold kwArticleShortThen at h
  rcases oalt_eq_some h with h' | h'
  · obtain ⟨r, hr⟩ := litCIThen_eq_some h'
    exact charLitOptThen_eq_some hr
  · exact litCIThen_eq_some h'

/-- Inversion for the short-grammar paragraph keyword. -/
lemma kwParagraphShortThen_eq_some {α : Type} {k : List Char → Option α} {l : List Char}
    {v : α} (h : kwParagraphShortThen k l = some v) : ∃ r, k r = some v := by
  unfold kwParagraphShortThen at h
  rcases oalt_eq_some h with h' | h'
  · obtain ⟨r, hr⟩ := litCIThen_eq_some h'
    exact charLitOptThen_eq_some hr
  · exact litCIThen_eq_some h'

/-- Inversion for the optional numbered group shared by the English
grammars: either the group matched and the continuation received an
all-digit capture, or the group was skipped. -/
lemma engNumGroupOptThen_eq_some {α : Type}
    {kw : {β : Type} → (List Char → Option β) → List Char → Option β} (hkw : KwInv kw)
    {k : Option (List Char) → List Char → Option α} {l : List Char} {v : α}
    (h : engNumGroupOptThen kw k l = some v) :
    (∃ ds r, ds.all jsIsDigit = true ∧ k (some ds) r = some v) ∨ k none l = some v := by
  unfold engNumGroupOptThen at h
  rcases oalt_eq_some h with h' | h'
  · obtain ⟨r1, h1⟩ := wsStarThen_eq_some h'
    obtain ⟨r2, h2⟩ := charOptThen_eq_some h1
    obtain ⟨r3, h3⟩ := wsStarThen_eq_some h2
    obtain ⟨r4, h4⟩ := hkw _ _ _ _ h3
    obtain ⟨r5, h5⟩ := wsPlusThen_eq_some h4
    obtain ⟨ds, r6, hds, h6⟩ := digitsThen_eq_some h5
    exact Or.inl ⟨ds, r6, hds, h6⟩
  · exact Or.inr h'

/-- Inversion for the optional paragraph group of the identifier grammar. -/
lemma idParaGroupOptThen_eq_some {α : Type}
    {k : Option (List Char) → List Char → Option α} {l : List Char} {v : α}
    (h : idParaGroupOptThen k l = some v) :
    (∃ ds r, ds.all jsIsDigit = true ∧ k (some ds) r = some v) ∨ k none l = some v := by
  unfold idParaGroupOptThen at h
  rcases oalt_eq_some h with h' | h'
  · obtain ⟨r1, h1⟩ := wsStarThen_eq_some h'
    obtain ⟨r2, h2⟩ := charThen_eq_some h1
    obtain ⟨r3, h3⟩ := wsStarThen_eq_some h2
    obtain ⟨r4, h4⟩ := kwParagraphShortThen_eq_some h3
    obtain ⟨r5, h5⟩ := wsStarThen_eq_some h4
    obtain ⟨r6, h6⟩ := charLitOptThen_eq_some h5
    obtain ⟨r7, h7⟩ := wsStarThen_eq_some h6
    obtain ⟨ds, r8, hds, h8⟩ := digitsThen_eq_some h7
    exact Or.inl ⟨ds, r8, hds, h8⟩
  · exact Or.inr h'

/-- Decimal digit characters pass the digit class. -/
lemma jsIsDigit_digitChar (d : Nat) : jsIsDigit (digitChar d) = true := by
  unfold digitChar
  split_ifs <;> decide

/-- Decimal renderings consist of digits only. -/
lemma natToDecGo_all_digits (fuel : Nat) : ∀ n, (natToDecGo fuel n).all jsIsDigit = true := by
  induction fuel with
  | zero => intro n; rfl
  | succ fuel ih =>
    intro n
    unfold natToDecGo
    split
    · simp [jsIsDigit_digitChar]
    · rw [List.all_append]
      simp [ih, jsIsDigit_digitChar]

/-- Decimal renderings as strings consist of digits only. -/
lemma natToDecStr_all_digits (n : Nat) : (natToDecStr n).data.all jsIsDigit = true :=
  natToDecGo_all_digits (n + 1) n

/-- The shared wrapped-number parser always returns either an all-digit
string or the raw unconvertible reference text. -/
lemma parseWrappedNumber_ok (mark : Char) (ref : String) :
    digitsOrFallback (parseWrappedNumber mark ref) = true := by
  unfold parseWrappedNumber
  cases hmatch : japSubCapThen mark (fun inner _rest => some inner) (jsTrim ref).data with
  | some inner =>
    dsimp only
    split_ifs with h1 h2
    · simp [digitsOrFallback, h1.2]
    · simp [digitsOrFallback, natToDecStr_all_digits]
    · have h0 : kanjiToArabicL inner = 0 := by omega
      simp [digitsOrFallback, h0]
  | none =>
    dsimp only
    split_ifs with h1 h2
    · simp [digitsOrFallback, h1.2]
    · simp [digitsOrFallback, natToDecStr_all_digits]
    · have h0 : kanjiToArabicL (jsTrim ref).data = 0 := by omega
      simp [digitsOrFallback, h0]

/-- The three numeral fields of a native-grammar parse satisfy the
digits-or-fallback guarantee. -/
lemma parseJapaneseRef_fields (a b : String) :
    (parseJapaneseRef a b).article.all digitsOrFallback = true ∧
    (parseJapaneseRef a b).paragraph.all digitsOrFallback = true ∧
    (parseJapaneseRef a b).item.all digitsOrFallback = true := by
  unfold parseJapaneseRef
  refine ⟨?_, ?_, ?_⟩
  · dsimp only
    split
    · simpa using parseWrappedNumber_ok '条' a
    · rfl
  · dsimp only
    cases japParaSearch a.data with
    | none => rfl
    | some cap => simpa using parseWrappedNumber_ok '項' ⟨cap⟩
  · dsimp only
    cases japItemSearch a.data with
    | none => rfl
    | some cap => simpa using parseWrappedNumber_ok '号' ⟨cap⟩

/-- Keyword inversions packaged for the optional-group lemma. -/
lemma kwParagraphFull_inv : KwInv fun {β} => @kwParagraphFullThen β :=
  fun _ _ _ _ h => kwParagraphFullThen_eq_some h

/-- The item keyword of the full grammar, packaged likewise. -/
lemma kwItemFull_inv : KwInv fun {β} => @litCIThen β "item".data :=
  fun _ _ _ _ h => litCIThen_eq_some h

/-- The paragraph keyword of the short grammar, packaged likewise. -/
lemma kwParagraphShort_inv : KwInv fun {β} => @kwParagraphShortThen β :=
  fun _ _ _ _ h => kwParagraphShortThen_eq_some h

/-- The common tail of `ENGLISH_FULL` pins the captured groups of the
result record. -/
lemma engTail_fields {art : List Char} {para item : Option (List Char)} {r : List Char}
    {g : EnglishFullGroups}
    (h : wsStarThen
      (charThen [',', '、']
        (wsStarThen
          (lazyDotPlusThen fun name rest4 =>
            oalt
              ((actClauseEnd rest4).map fun a =>
                ⟨art, para, item, name, some a⟩)
              (if rest4.isEmpty then some ⟨art, para, item, name, none⟩
               else none)))) r = some g) :
    g.art = art ∧ g.para = para ∧ g.item = item := by
  obtain ⟨r1, h1⟩ := wsStarThen_eq_some h
  obtain ⟨r2, h2⟩ := charThen_eq_some h1
  obtain ⟨r3, h3⟩ := wsStarThen_eq_some h2
  obtain ⟨name, r4, h4⟩ := lazyDotPlusThen_eq_some h3
  rcases oalt_eq_some h4 with h' | h'
  · obtain ⟨a, -, hg⟩ := Option.map_eq_some'.1 h'
    rw [← hg]
    exact ⟨rfl, rfl, rfl⟩
  · split at h'
    · rw [← Option.some.inj h']
      exact ⟨rfl, rfl, rfl⟩
    · simp at h'

/-- Captured numeral groups of `ENGLISH_FULL` are all-digit lists. -/
lemma matchEnglishFull_digits {l : List Char} {g : EnglishFullGroups}
    (h : matchEnglishFull l = some g) :
    g.art.all jsIsDigit = true ∧
    (∀ p, g.para = some p → p.all jsIsDigit = true) ∧
    (∀ i, g.item = some i → i.all jsIsDigit = true) := by
  unfold matchEnglishFull at h
  obtain ⟨r1, h⟩ := kwArticleFullThen_eq_some h
  obtain ⟨r2, h⟩ := wsPlusThen_eq_some h
  obtain ⟨art, r3, hart, h⟩ := digitsThen_eq_some h
  rcases engNumGroupOptThen_eq_some kwParagraphFull_inv h with ⟨pds, r4, hpds, h⟩ | h
  · rcases engNumGroupOptThen_eq_some kwItemFull_inv h with ⟨ids, r5, hids, h⟩ | h
    · obtain ⟨hga, hgp, hgi⟩ := engTail_fields h
      refine ⟨by rw [hga]; exact hart, ?_, ?_⟩
      · intro x hx; rw [hgp] at hx; rw [← Option.some.inj hx]; exact hpds
      · intro x hx; rw [hgi] at hx; rw [← Option.some.inj hx]; exact hids
    · obtain ⟨hga, hgp, hgi⟩ := engTail_fields h
      refine ⟨by rw [hga]; exact hart, ?_, ?_⟩
      · intro x hx; rw [hgp] at hx; rw [← Option.some.inj hx]; exact hpds
      · intro x hx; rw [hgi] at hx; simp at hx
  · rcases engNumGroupOptThen_eq_some kwItemFull_inv h with ⟨ids, r5, hids, h⟩ | h
    · obtain ⟨hga, hgp, hgi⟩ := engTail_fields h
      refine ⟨by rw [hga]; exact hart, ?_, ?_⟩
      · intro x hx; rw [hgp] at hx; simp at hx
      · intro x hx; rw [hgi] at hx; rw [← Option.some.inj hx]; exact hids
    · obtain ⟨hga, hgp, hgi⟩ := engTail_fields h
      refine ⟨by rw [hga]; exact hart, ?_, ?_⟩
      · intro x hx; rw [hgp] at hx; simp at hx
      · intro x hx; rw [hgi] at hx; simp at hx

/-- Captured numeral groups of `SHORT_CITATION` are all-digit lists. -/
lemma matchShortCitation_digits {l : List Char} {g : ShortGroups}
    (h : matchShortCitation l = some g) :
    g.art.all jsIsDigit = true ∧
    (∀ p, g.para = some p → p.all jsIsDigit = true) := by
  unfold matchShortCitation at h
  obtain ⟨r1, h⟩ := kwArticleShortThen_eq_some h
  obtain ⟨r2, h⟩ := wsPlusThen_eq_some h
  obtain ⟨art, r3, hart, h⟩ := digitsThen_eq_some h
  have tail_fields : ∀ {para : Option (List Char)} {r : List Char},
      wsStarThen
        (charThen [',', '、']
          (wsStarThen
            (lazyDotPlusThen fun name rest3 =>
              if rest3.isEmpty then some ⟨art, para, name⟩ else none))) r = some g →
      g.art = art ∧ g.para = para := by
    intro para r hh
    obtain ⟨s1, hh1⟩ := wsStarThen_eq_some hh
    obtain ⟨s2, hh2⟩ := charThen_eq_some hh1
    obtain ⟨s3, hh3⟩ := wsStarThen_eq_some hh2
    obtain ⟨name, s4, hh4⟩ := lazyDotPlusThen_eq_some hh3
    split at hh4
    · rw [← Option.some.inj hh4]
      exact ⟨rfl, rfl⟩
    · simp at hh4
  rcases engNumGroupOptThen_eq_some kwParagraphShort_inv h with ⟨pds, r4, hpds, h⟩ | h
  · obtain ⟨hga, hgp⟩ := tail_fields h
    refine ⟨by rw [hga]; exact hart, ?_⟩
    intro x hx
    rw [hgp] at hx
    rw [← Option.some.inj hx]
    exact hpds
  · obtain ⟨hga, hgp⟩ := tail_fields h
    refine ⟨by rw [hga]; exact hart, ?_⟩
    intro x hx
    rw [hgp] at hx
    simp at hx

/-- Captured numeral groups of `ID_BASED` are all-digit lists. -/
lemma matchIdBased_digits {l : List Char} {g : IdGroups}
    (h : matchIdBased l = some g) :
    g.art.all jsIsDigit = true ∧
    (∀ p, g.para = some p → p.all jsIsDigit = true) := by
  unfold matchIdBased at h
  obtain ⟨r1, h⟩ := litCIThen_eq_some h
  obtain ⟨no, r2, hno, h⟩ := digitsThen_eq_some h
  obtain ⟨r3, h⟩ := litThen_eq_some h
  obtain ⟨yr, r4, hyr, h⟩ := digits4Then_eq_some h
  obtain ⟨r5, h⟩ := wsStarThen_eq_some h
  obtain ⟨r6, h⟩ := charThen_eq_some h
  obtain ⟨r7, h⟩ := wsStarThen_eq_some h
  obtain ⟨r8, h⟩ := kwArticleShortThen_eq_some h
  obtain ⟨r9, h⟩ := wsStarThen_eq_some h
  obtain ⟨r10, h⟩ := charLitOptThen_eq_some h
  obtain ⟨r11, h⟩ := wsStarThen_eq_some h
  obtain ⟨art, r12, hart, h⟩ := digitsThen_eq_some h
  rcases idParaGroupOptThen_eq_some h with ⟨pds, r13, hpds, h⟩ | h <;>
    · split at h
      · rw [← Option.some.inj h]
        refine ⟨hart, ?_⟩
        intro x hx
        first
          | (rw [← Option.some.inj hx]; exact hpds)
          | simp at hx
      · simp at h

/-- Claim C1 (amended) — whenever `parseCitation` populates the article,
paragraph or item field, the field holds an Arabic-digit string, except
that a reference whose numeral fails conversion (`kanjiToArabic` yields 0)
is passed through as raw text; normalization to digits therefore holds
exactly when the source numeral was Arabic or a convertible native
numeral. -/
theorem c1_fields_digits_or_fallback (s : String) :
    (parseCitation s).article.all digitsOrFallback = true ∧
    (parseCitation s).paragraph.all digitsOrFallback = true ∧
    (parseCitation s).item.all digitsOrFallback = true := by
  unfold parseCitation
  split
  · exact parseJapaneseRef_fields _ _
  split
  · exact parseJapaneseRef_fields _ _
  split
  · rename_i g heq
    obtain ⟨hart, hpara, hitem⟩ := matchEnglishFull_digits heq
    refine ⟨by simpa [digitsOrFallback] using Or.inl hart, ?_, ?_⟩
    · cases hp : g.para with
      | none => simp [hp]
      | some p =>
        simp only [hp, Option.map_some', Option.all_some]
        simpa [digitsOrFallback] using Or.inl (hpara p hp)
    · cases hi : g.item with
      | none => simp [hi]
      | some i =>
        simp only [hi, Option.map_some', Option.all_some]
        simpa [digitsOrFallback] using Or.inl (hitem i hi)
  split
  · rename_i g heq
    obtain ⟨hart, hpara⟩ := matchShortCitation_digits heq
    refine ⟨by simpa [digitsOrFallback] using Or.inl hart, ?_, by simp⟩
    cases hp : g.para with
    | none => simp [hp]
    | some p =>
      simp only [hp, Option.map_some', Option.all_some]
      simpa [digitsOrFallback] using Or.inl (hpara p hp)
  split
  · rename_i g heq
    obtain ⟨hart, hpara⟩ := matchIdBased_digits heq
    refine ⟨by simpa [digitsOrFallback] using Or.inl hart, ?_, by simp⟩
    cases hp : g.para with
    | none => simp [hp]
    | some p =>
      simp only [hp, Option.map_some', Option.all_some]
      simpa [digitsOrFallback] using Or.inl (hpara p hp)
  · exact ⟨rfl, rfl, rfl⟩

